import Mathlib

/-!
Verification of the OSUIT course credit-hour adjustment tool
(a single-file data application: `src/app.py`).

The development embeds the program's data model and the per-row
computations of the main loop as executable Lean definitions, then
settles the stated properties of the reconciliation arithmetic, the
validation verdict, subject-code derivation, filtering, and export.
-/

/-- Instructional mode, the keys of the MINUTES dictionary (app.py lines 6-11). -/
inductive Mode
  | Theory
  | Lab
  | Internship
  | Clinical
deriving DecidableEq, Repr

/-- Minutes per credit hour for each instructional mode (app.py lines 6-11). -/
def MINUTES : Mode → Nat
  | .Theory => 800
  | .Lab => 1600
  | .Internship => 2475
  | .Clinical => 2400

/-- One course record, as loaded and normalized at startup
(app.py lines 17-25): credits and seat time coerced to integers,
course code defaulted to the empty string when missing. -/
structure Course where
  courseCode : String
  courseName : String
  school : String
  totalCredits : Nat
  currentSeatTime : Nat
deriving DecidableEq, Repr

/-- A user-entered credit split: the four number inputs with min value 0
and integer step (app.py lines 90-93). -/
structure Split where
  theory : Nat
  lab : Nat
  intern : Nat
  clinical : Nat
deriving DecidableEq, Repr

/-- Sum of the four split credits (app.py line 95). -/
def total_adjusted (s : Split) : Nat :=
  s.theory + s.lab + s.intern + s.clinical

/-- Derived seat time of a split (app.py lines 99-104). -/
def new_seat_time (s : Split) : Nat :=
  s.theory * MINUTES .Theory +
  s.lab * MINUTES .Lab +
  s.intern * MINUTES .Internship +
  s.clinical * MINUTES .Clinical

/-- The three validation outcomes shown to the user
(error banner, warning banner, success banner; app.py lines 107-112). -/
inductive Validation
  | EXCEEDS
  | UNDER
  | MATCH
deriving DecidableEq, Repr

/-- Validation verdict, in the order the source evaluates its branches
(app.py lines 107-112): exceeds first, then under, else match. -/
def validation (totalAdjusted originalCredits : Nat) : Validation :=
  if totalAdjusted > originalCredits then .EXCEEDS
  else if totalAdjusted < originalCredits then .UNDER
  else .MATCH

/-- Signed seat-time delta (app.py lines 118 and 134). Python integers are
signed and unbounded, so the difference is an integer, never truncated. -/
def seat_time_difference (newSeatTime currentSeatTime : Nat) : Int :=
  (newSeatTime : Int) - (currentSeatTime : Int)

/-- C1: for every non-negative credit split, new_seat_time is exactly
800*theory + 1600*lab + 2475*intern + 2400*clinical, with the fixed
per-mode minute constants Theory=800, Lab=1600, Internship=2475,
Clinical=2400. -/
theorem new_seat_time_formula (s : Split) :
    new_seat_time s =
      800 * s.theory + 1600 * s.lab + 2475 * s.intern + 2400 * s.clinical
    ∧ MINUTES .Theory = 800 ∧ MINUTES .Lab = 1600
    ∧ MINUTES .Internship = 2475 ∧ MINUTES .Clinical = 2400 := by
  refine ⟨?_, rfl, rfl, rfl, rfl⟩
  simp [new_seat_time, MINUTES]
  ring

/-- C2: the validation verdict is EXCEEDS iff the split total strictly
exceeds the course total, UNDER iff strictly below, MATCH iff equal;
the three outcomes are mutually exclusive and exhaustive. -/
theorem validation_trichotomy (c : Course) (s : Split) :
    (validation (total_adjusted s) c.totalCredits = .EXCEEDS
      ↔ total_adjusted s > c.totalCredits)
    ∧ (validation (total_adjusted s) c.totalCredits = .UNDER
      ↔ total_adjusted s < c.totalCredits)
    ∧ (validation (total_adjusted s) c.totalCredits = .MATCH
      ↔ total_adjusted s = c.totalCredits) := by
  unfold validation
  by_cases h1 : total_adjusted s > c.totalCredits
  · simp [h1]
    omega
  · by_cases h2 : total_adjusted s < c.totalCredits
    · simp [h1, h2]
      omega
    · simp [h1, h2]
      omega

/-- C3: the seat-time difference is the signed integer difference between
the new seat time and the course's current seat time, negative whenever
the new seat time falls below the current one. -/
theorem seat_time_difference_signed (c : Course) (s : Split) :
    seat_time_difference (new_seat_time s) c.currentSeatTime
      = (new_seat_time s : Int) - (c.currentSeatTime : Int)
    ∧ (new_seat_time s < c.currentSeatTime →
        seat_time_difference (new_seat_time s) c.currentSeatTime < 0) := by
  refine ⟨rfl, fun h => ?_⟩
  unfold seat_time_difference
  omega

/-- Witness for C3: the spec's concrete scenario, a course with current
seat time 2400 and split theory=2, giving a difference of -800. -/
theorem seat_time_difference_signed_witness :
    new_seat_time ⟨2, 0, 0, 0⟩ < 2400
    ∧ seat_time_difference (new_seat_time ⟨2, 0, 0, 0⟩) 2400 < 0 := by
  refine ⟨by decide, ?_⟩
  exact (seat_time_difference_signed
    ⟨"NURS1113", "Nursing I", "School of Nursing", 3, 2400⟩
    ⟨2, 0, 0, 0⟩).2 (by decide)

/-- C9: the new seat time is bounded between 800 and 2475 minutes per
adjusted credit, and is zero exactly when all four split credits are zero. -/
theorem new_seat_time_bounds (s : Split) :
    800 * total_adjusted s ≤ new_seat_time s
    ∧ new_seat_time s ≤ 2475 * total_adjusted s
    ∧ (new_seat_time s = 0
        ↔ s.theory = 0 ∧ s.lab = 0 ∧ s.intern = 0 ∧ s.clinical = 0) := by
  simp only [new_seat_time, total_adjusted, MINUTES]
  omega

/-- The character class of the regular expression used to derive subject
codes (app.py line 25): an ASCII uppercase letter A-Z. -/
def isUpperAZ (c : Char) : Bool :=
  'A' ≤ c && c ≤ 'Z'

/-- Greedy match of the regular expression anchored at the start of the
string (app.py line 25): consume uppercase letters until the first
non-matching character. -/
def extract_upper : List Char → List Char
  | [] => []
  | c :: cs => if isUpperAZ c then c :: extract_upper cs else []

/-- Derived subject code of a course code (app.py line 25): the captured
group of the anchored uppercase run when the match is non-empty, and the
fill value for a failed match otherwise. -/
def subject_code (courseCode : String) : String :=
  match extract_upper courseCode.toList with
  | [] => "UNKNOWN"
  | c :: cs => String.mk (c :: cs)

/-- The greedy anchored match is exactly the longest uppercase run at the
start of the character list. -/
theorem extract_upper_eq_takeWhile (l : List Char) :
    extract_upper l = l.takeWhile isUpperAZ := by
  induction l with
  | nil => rfl
  | cons c cs ih =>
    simp only [extract_upper, List.takeWhile]
    cases h : isUpperAZ c <;> simp [h, ih]

/-- Characters of a list dropped by takeWhile start, if anywhere, with a
character that fails the predicate. -/
theorem head_dropWhile_false (p : Char → Bool) (l : List Char) :
    ∀ c ∈ (l.dropWhile p).head?, p c = false := by
  induction l with
  | nil => intro c hc; simp at hc
  | cons a l ih =>
    intro c hc
    by_cases h : p a
    · rw [List.dropWhile_cons_of_pos h] at hc
      exact ih c hc
    · rw [List.dropWhile_cons_of_neg h] at hc
      simp at hc
      simpa [hc] using h

/-- C8: the derived subject code is the leading run of uppercase letters
A-Z of the course code when that run is non-empty, and UNKNOWN when the
course code has no leading uppercase letter (in particular when it is
empty); the run consists of uppercase letters, is an initial segment of
the course code, and is maximal (the next character, if any, is not an
uppercase letter). -/
theorem subject_code_spec (s : String) :
    (s.toList.takeWhile isUpperAZ = [] → subject_code s = "UNKNOWN")
    ∧ (s.toList.takeWhile isUpperAZ ≠ [] →
        subject_code s = String.mk (s.toList.takeWhile isUpperAZ))
    ∧ (∀ c ∈ s.toList.takeWhile isUpperAZ, isUpperAZ c = true)
    ∧ s.toList = s.toList.takeWhile isUpperAZ ++ s.toList.dropWhile isUpperAZ
    ∧ (∀ c ∈ (s.toList.dropWhile isUpperAZ).head?, isUpperAZ c = false) := by
  refine ⟨?_, ?_, ?_, ?_, ?_⟩
  · intro h
    unfold subject_code
    rw [extract_upper_eq_takeWhile, h]
  · intro h
    unfold subject_code
    rw [extract_upper_eq_takeWhile]
    cases hc : s.toList.takeWhile isUpperAZ with
    | nil => exact absurd hc h
    | cons c cs => rfl
  · intro c hc
    exact List.mem_takeWhile_imp hc
  · exact (List.takeWhile_append_dropWhile isUpperAZ s.toList).symm
  · exact head_dropWhile_false isUpperAZ s.toList

/-- Witness for C8: a concrete course code with an uppercase run gives
that run, and the empty and digit-leading course codes give UNKNOWN. -/
theorem subject_code_spec_witness :
    subject_code "MATH1513" = "MATH" ∧ subject_code "" = "UNKNOWN" := by
  constructor
  · have h := (subject_code_spec "MATH1513").2.1 (by decide)
    rw [h]
    decide
  · exact (subject_code_spec "").1 (by decide)

/-- School filter step (app.py lines 58-61): an exact-match filter on the
School column, with the sentinel value Show All leaving the collection
unchanged. -/
def filter_by_school (school : String) (courses : List Course) : List Course :=
  if school = "Show All" then courses
  else courses.filter (fun c => c.school == school)

/-- Subject filter step (app.py lines 66-67): an exact-match filter on the
derived SubjectCode column, with the sentinel value Show All leaving the
collection unchanged. -/
def filter_by_subject (subject : String) (courses : List Course) : List Course :=
  if subject = "Show All" then courses
  else courses.filter (fun c => subject_code c.courseCode == subject)

/-- The combined filtering pass (app.py lines 58-67): school filter first,
then subject filter on its result. -/
def filter_courses (courses : List Course) (school subject : String) : List Course :=
  filter_by_subject subject (filter_by_school school courses)

/-- Filtering a list twice by the same predicate is the same as filtering
once. -/
theorem filter_twice {α : Type} (p : α → Bool) (l : List α) :
    (l.filter p).filter p = l.filter p := by
  apply List.filter_eq_self.mpr
  intro a ha
  exact (List.mem_filter.mp ha).2

/-- C6: the combined filter returns exactly the subsequence of courses
matching all supplied filters (a supplied filter is one whose value is not
the Show All sentinel), with the original relative order preserved; a
filter with zero matches yields the empty list, since the result is
exactly the matching subsequence. -/
theorem filter_courses_spec (courses : List Course) (school subject : String) :
    filter_courses courses school subject =
      courses.filter (fun c =>
        (school == "Show All" || c.school == school) &&
        (subject == "Show All" || subject_code c.courseCode == subject))
    ∧ (filter_courses courses school subject).Sublist courses := by
  have h1 : filter_courses courses school subject =
      courses.filter (fun c =>
        (school == "Show All" || c.school == school) &&
        (subject == "Show All" || subject_code c.courseCode == subject)) := by
    unfold filter_courses filter_by_subject filter_by_school
    by_cases hs : school = "Show All" <;> by_cases ht : subject = "Show All"
    · simp [hs, ht]
    · have hbt : (subject == "Show All") = false := beq_eq_false_iff_ne.mpr ht
      simp [hs, ht, hbt]
    · have hbs : (school == "Show All") = false := beq_eq_false_iff_ne.mpr hs
      simp [hs, ht, hbs]
    · have hbs : (school == "Show All") = false := beq_eq_false_iff_ne.mpr hs
      have hbt : (subject == "Show All") = false := beq_eq_false_iff_ne.mpr ht
      simp [hs, ht, hbs, hbt]
      exact List.filter_congr (fun a _ => Bool.and_comm _ _)
  refine ⟨h1, ?_⟩
  rw [h1]
  exact List.filter_sublist courses

/-- C7: both filter steps are idempotent: filtering an already-filtered
collection again by the same school or the same subject code returns the
same collection. -/
theorem filter_idempotent (courses : List Course) (x : String) :
    filter_by_school x (filter_by_school x courses) = filter_by_school x courses
    ∧ filter_by_subject x (filter_by_subject x courses)
        = filter_by_subject x courses := by
  constructor
  · unfold filter_by_school
    by_cases hx : x = "Show All" <;> simp [hx, filter_twice]
  · unfold filter_by_subject
    by_cases hx : x = "Show All" <;> simp [hx, filter_twice]

/-- C10: the school filter and the subject filter commute: applying them
in either order yields the same sequence. -/
theorem filter_commute (courses : List Course) (s c : String) :
    filter_by_subject c (filter_by_school s courses)
      = filter_by_school s (filter_by_subject c courses) := by
  unfold filter_by_school filter_by_subject
  by_cases hs : s = "Show All" <;> by_cases hc : c = "Show All" <;>
    simp [hs, hc, List.filter_filter]
  apply List.filter_congr
  intro a _
  rw [Bool.and_comm]

/-- A cell of the exported table: course identity fields are strings,
credit fields are non-negative integers, and the seat-time difference is a
signed integer. -/
inductive CellValue
  | str (s : String)
  | nat (n : Nat)
  | int (i : Int)
deriving DecidableEq, Repr

/-- One row appended to updated_rows for a course of the filtered view and
its entered split, in the key order of the source dictionary
(app.py lines 122-135). -/
def exportRow (c : Course) (s : Split) : List (String × CellValue) :=
  [("CourseCode", .str c.courseCode),
   ("CourseName", .str c.courseName),
   ("School", .str c.school),
   ("SubjectCode", .str (subject_code c.courseCode)),
   ("TotalCredits", .nat c.totalCredits),
   ("TheoryCredits", .nat s.theory),
   ("LabCredits", .nat s.lab),
   ("InternshipCredits", .nat s.intern),
   ("ClinicalCredits", .nat s.clinical),
   ("OriginalSeatTime", .nat c.currentSeatTime),
   ("NewSeatTime", .nat (new_seat_time s)),
   ("SeatTimeDifference", .int (seat_time_difference (new_seat_time s) c.currentSeatTime))]

/-- The accumulated rows of the per-course loop (app.py lines 72-135): one
row per course of the filtered view, in view order. -/
def updated_rows (view : List (Course × Split)) : List (List (String × CellValue)) :=
  view.map (fun p => exportRow p.1 p.2)

/-- The column order required of the output file. -/
def exportColumns : List String :=
  ["CourseCode", "CourseName", "School", "SubjectCode", "TotalCredits",
   "TheoryCredits", "LabCredits", "InternshipCredits", "ClinicalCredits",
   "OriginalSeatTime", "NewSeatTime", "SeatTimeDifference"]

/-- The export action (app.py lines 140-151): when updated_rows is
non-empty a file holding exactly those rows is produced; when it is empty
the branch is skipped, no file is written, and an informational message is
shown instead. -/
def export_adjustments (rows : List (List (String × CellValue))) :
    Option (List (List (String × CellValue))) :=
  if rows = [] then none else some rows

/-- C5: the export table has exactly one row per course of the filtered
view at export time, row i coming from course i of the view, and every
row's columns are exactly CourseCode, CourseName, School, SubjectCode,
TotalCredits, TheoryCredits, LabCredits, InternshipCredits,
ClinicalCredits, OriginalSeatTime, NewSeatTime, SeatTimeDifference in that
order. -/
theorem export_table_shape (view : List (Course × Split)) :
    (updated_rows view).length = view.length
    ∧ (∀ r ∈ updated_rows view, r.map Prod.fst = exportColumns)
    ∧ (∀ i : Nat, (updated_rows view)[i]? =
        Option.map (fun p => exportRow p.1 p.2) view[i]?) := by
  refine ⟨List.length_map view _, ?_, ?_⟩
  · intro r hr
    obtain ⟨p, _, hp⟩ := List.mem_map.mp hr
    rw [← hp]
    rfl
  · intro i
    exact List.getElem?_map _ view i

/-- Witness for C5: a one-course view gives a one-row table whose single
row carries the required columns in order. -/
theorem export_table_shape_witness :
    (updated_rows [(⟨"NURS1113", "Nursing I", "School of Nursing", 3, 2400⟩,
        ⟨2, 0, 0, 0⟩)]).length = 1
    ∧ (exportRow ⟨"NURS1113", "Nursing I", "School of Nursing", 3, 2400⟩
        ⟨2, 0, 0, 0⟩).map Prod.fst = exportColumns := by
  constructor
  · exact (export_table_shape
      [(⟨"NURS1113", "Nursing I", "School of Nursing", 3, 2400⟩, ⟨2, 0, 0, 0⟩)]).1
  · exact (export_table_shape
      [(⟨"NURS1113", "Nursing I", "School of Nursing", 3, 2400⟩, ⟨2, 0, 0, 0⟩)]).2.1
      _ (List.mem_singleton.mpr rfl)

/-- Counterexample for C4: on the empty row collection the export action
produces no file at all (the download branch is skipped), rather than an
empty but valid output file. -/
theorem export_empty_no_file :
    export_adjustments [] = none := rfl

/-- C4 as amended: the export action writes a file exactly when at least
one row exists, the file then holding exactly the accumulated rows; on an
empty collection no file is produced and the action is a no-op. -/
theorem export_adjustments_guard (rows : List (List (String × CellValue))) :
    (export_adjustments rows = none ↔ rows = [])
    ∧ (export_adjustments rows = some rows ↔ rows ≠ []) := by
  unfold export_adjustments
  by_cases h : rows = [] <;> simp [h]
